import Mathlib

/-!
Verification of the Evolution agent-based simulation engine.

Shallow embedding of the core simulation code: the neural controller's
genome bookkeeping (src/nn.py), the spatial grid (src/world.py), the
creature sense/act/reproduce/collision logic
(src/creatures/base_creature.py), and the per-tick orchestration passes
(src/simulation.py).  Real-valued quantities are modelled as rationals;
calls to library randomness (random.randint, random.uniform,
random.random) are modelled as explicit oracle parameters, and
math.hypot (a square root) is passed in as a function parameter `hyp`
whose exactness, where needed, is a hypothesis of the theorem.
-/

namespace Evolution

/-- Species descriptor: the per-species parameter record a creature is
constructed from (one entry of SPECIES_BLUEPRINTS, as read by
BaseCreature.__init__).  Rendering-only fields (color, fov, which the
sense code never reads) are omitted. -/
structure SpeciesConfig where
  radius : ℚ
  max_energy : ℚ
  reproduction_threshold : ℚ
  reproduction_cost : ℚ
  mutation_rate : ℚ
  mutation_amount : ℚ
  metabolic_rate : ℚ
  move_cost : ℚ
  sense_radius : ℚ
  max_speed : ℚ
  species_name : String
  collision_interactions : List (String × String)
  steal_amount : ℚ
  steal_efficiency : ℚ
  min_offspring : ℕ
  max_offspring : ℕ
  lifespan_ticks : ℕ
  population_cap : ℕ
deriving DecidableEq

/-- Food pellet (src/food.py): position, energy value, radius. -/
structure Food where
  x : ℚ
  y : ℚ
  energy : ℚ
  radius : ℚ
deriving DecidableEq

/-- A creature's mutable state (BaseCreature).  The fields BaseCreature
copies out of its species_config and never reassigns are exposed as
accessor functions below; `cid` models Python object identity (the
value `id(self)` used for `is` checks and pair dedup keys). -/
structure Creature where
  x : ℚ
  y : ℚ
  vx : ℚ
  vy : ℚ
  energy : ℚ
  age : ℕ
  genome : List ℚ
  cfg : SpeciesConfig
  cid : ℕ
deriving DecidableEq

def Creature.radius (c : Creature) : ℚ := c.cfg.radius

def Creature.max_energy (c : Creature) : ℚ := c.cfg.max_energy

/-- self.reproduction_threshold = self.max_energy * species_config["reproduction_threshold"] -/
def Creature.reproduction_threshold (c : Creature) : ℚ :=
  c.cfg.max_energy * c.cfg.reproduction_threshold

/-- self.reproduction_cost = self.max_energy * species_config["reproduction_cost"] -/
def Creature.reproduction_cost (c : Creature) : ℚ :=
  c.cfg.max_energy * c.cfg.reproduction_cost

def Creature.mutation_rate (c : Creature) : ℚ := c.cfg.mutation_rate

def Creature.mutation_amount (c : Creature) : ℚ := c.cfg.mutation_amount

def Creature.metabolic_rate (c : Creature) : ℚ := c.cfg.metabolic_rate

def Creature.move_cost (c : Creature) : ℚ := c.cfg.move_cost

def Creature.sense_radius (c : Creature) : ℚ := c.cfg.sense_radius

def Creature.max_speed (c : Creature) : ℚ := c.cfg.max_speed

def Creature.species_name (c : Creature) : String := c.cfg.species_name

def Creature.collision_interactions (c : Creature) : List (String × String) :=
  c.cfg.collision_interactions

def Creature.steal_amount (c : Creature) : ℚ := c.cfg.steal_amount

def Creature.steal_efficiency (c : Creature) : ℚ := c.cfg.steal_efficiency

def Creature.min_offspring (c : Creature) : ℕ := c.cfg.min_offspring

def Creature.max_offspring (c : Creature) : ℕ := c.cfg.max_offspring

def Creature.lifespan (c : Creature) : ℕ := c.cfg.lifespan_ticks

def Creature.population_cap (c : Creature) : ℕ := c.cfg.population_cap

/-- BaseCreature.__init__(x, y, species_config): fresh creature with
energy = max_energy / 2, age 0, zero velocity.  The random initial
genome draw (np.random.uniform) is the oracle argument `g0`, and the
new object's identity is `cid`. -/
def BaseCreature_init (x y : ℚ) (cfg : SpeciesConfig) (g0 : List ℚ) (cid : ℕ) : Creature :=
  { x := x, y := y, vx := 0, vy := 0,
    energy := cfg.max_energy / 2, age := 0,
    genome := g0, cfg := cfg, cid := cid }

/-! ## NeuralNetwork genome bookkeeping (src/nn.py)

The network is a ModuleList of nn.Linear(layer_sizes[i], layer_sizes[i+1]).
Its parameters(), in order, are each layer's weight (numel = out*in) then
bias (numel = out).  set_genome walks a pointer through the flat genome,
slicing one chunk per parameter; get_genome flattens each parameter back
and concatenates.  Since torch's reshape and flatten are mutually inverse
row-major maps, a parameter is modelled by its flattened data chunk. -/

/-- Consecutive layer pairs (ls[i], ls[i+1]), mirroring
`for i in range(len(layer_sizes) - 1): Linear(ls[i], ls[i+1])`. -/
def layerPairs : List ℕ → List (ℕ × ℕ)
  | a :: b :: rest => (a, b) :: layerPairs (b :: rest)
  | _ => []

/-- numel of each parameter tensor of the network, in parameters() order:
per layer, the weight (out·in entries) then the bias (out entries). -/
def paramShapes (ls : List ℕ) : List ℕ :=
  (layerPairs ls).flatMap fun p => [p.2 * p.1, p.2]

/-- NeuralNetwork.calculate_genome_length: sum of p.numel() over parameters. -/
def calculate_genome_length (ls : List ℕ) : ℕ := (paramShapes ls).sum

/-- Modelled from the spec's words, for comparison with the code's
calculate_genome_length: the closed-form sum over consecutive layer
pairs of (n_i · n_{i+1} + n_{i+1}). -/
def genomeClosedFormSpec (ls : List ℕ) : ℕ :=
  ((layerPairs ls).map fun p => p.1 * p.2 + p.2).sum

/-- NeuralNetwork.set_genome: walk the pointer through the genome, one
chunk per parameter.  numpy slicing genome[p : p+s] truncates at the end
of the array, and the subsequent reshape to the parameter's shape raises
exactly when the chunk is short, i.e. when fewer than `s` entries
remain; a leftover tail after the last parameter is ignored. -/
def set_genome : List ℕ → List ℚ → Option (List (List ℚ))
  | [], _ => some []
  | s :: rest, g =>
    if s ≤ g.length then
      (set_genome rest (g.drop s)).map fun ps => g.take s :: ps
    else
      none

/-- NeuralNetwork.get_genome: flatten every parameter in order and
concatenate. -/
def get_genome (ps : List (List ℚ)) : List ℚ := ps.flatten

/-! ## World and the spatial grid (src/world.py) -/

/-- World: arena dimensions, live creatures and food, grid cell size.
The grid itself is rebuilt from the two lists each tick (update_grid
clears and reinserts everything), so cell contents are modelled as a
filter of the current lists, which reproduces insertion order. -/
structure World where
  width : ℚ
  height : ℚ
  creatures : List Creature
  food : List Food
  cell_size : ℚ

/-- World._get_cell_coords: int(x // cell_size), int(y // cell_size)
(Python floor division). -/
def cellOf (cs x y : ℚ) : ℤ × ℤ := (⌊x / cs⌋, ⌊y / cs⌋)

/-- Creatures stored in one grid cell after update_grid: the creatures
whose position hashes to that cell, in insertion (list) order. -/
def gridCreatures (w : World) (cell : ℤ × ℤ) : List Creature :=
  w.creatures.filter fun c => cellOf w.cell_size c.x c.y = cell

/-- Food items stored in one grid cell after update_grid. -/
def gridFood (w : World) (cell : ℤ × ℤ) : List Food :=
  w.food.filter fun f => cellOf w.cell_size f.x f.y = cell

/-- search_radius_in_cells = int(radius // cell_size) + 1. -/
def searchRadiusInCells (w : World) (radius : ℚ) : ℤ :=
  ⌊radius / w.cell_size⌋ + 1

/-- The offsets range(-s, s + 1) used for both dx and dy. -/
def offsets (s : ℤ) : List ℤ :=
  (List.range (2 * s + 1).toNat).map fun i : ℕ => -s + (i : ℤ)

/-- The cells visited by get_neighbors: for dx in range(-s, s+1): for dy
in range(-s, s+1): (center.1 + dx, center.2 + dy). -/
def cellRange (center : ℤ × ℤ) (s : ℤ) : List (ℤ × ℤ) :=
  (offsets s).flatMap fun dx =>
    (offsets s).map fun dy => (center.1 + dx, center.2 + dy)

/-- World.get_neighbors(entity, radius): concatenate the creature lists
and the food lists of every visited cell, queried at the entity's
current position (x, y). -/
def get_neighbors (w : World) (x y radius : ℚ) : List Creature × List Food :=
  let center := cellOf w.cell_size x y
  let s := searchRadiusInCells w radius
  let cells := cellRange center s
  (cells.flatMap fun c => gridCreatures w c,
   cells.flatMap fun c => gridFood w c)

/-- World.handle_boundaries: position modulo arena size (Python float %,
which for a positive modulus lands in [0, modulus)). -/
def handle_boundaries (w : World) (c : Creature) : Creature :=
  { c with x := c.x - w.width * ⌊c.x / w.width⌋,
           y := c.y - w.height * ⌊c.y / w.height⌋ }

/-! ## Creature sensing (BaseCreature.sense)

The sense method gathers the 7 neural inputs.  It never reads the
creature's velocity: the nearest food / nearest creature scans are
omnidirectional, with no field-of-view or heading computation.
math.hypot is the parameter `hyp`. -/

/-- The nearest-food scan: nearest_food, min_dist_food = None, inf;
for each food item, if dist < min_dist: update. -/
def nearestFood (hyp : ℚ → ℚ → ℚ) (c : Creature) (foods : List Food) :
    Option (Food × ℚ) :=
  foods.foldl
    (fun acc f =>
      let d := hyp (c.x - f.x) (c.y - f.y)
      match acc with
      | none => some (f, d)
      | some (f0, d0) => if d < d0 then some (f, d) else some (f0, d0))
    none

/-- The nearest-creature scan, skipping `other is self` (object
identity, modelled by cid). -/
def nearestCreature (hyp : ℚ → ℚ → ℚ) (c : Creature) (l : List Creature) :
    Option (Creature × ℚ) :=
  l.foldl
    (fun acc o =>
      if o.cid = c.cid then acc
      else
        let d := hyp (c.x - o.x) (c.y - o.y)
        match acc with
        | none => some (o, d)
        | some (o0, d0) => if d < d0 then some (o, d) else some (o0, d0))
    none

/-- BaseCreature.sense(world): the 7 inputs
[own_energy_normalized, dx_food, dy_food, dist_food_norm,
 dx_creature, dy_creature, threat_level], with zero substituted for
every component of a missing nearest target. -/
def sense (hyp : ℚ → ℚ → ℚ) (c : Creature) (w : World) : List ℚ :=
  let own_energy_normalized := c.energy / c.max_energy
  let local_objects := get_neighbors w c.x c.y c.sense_radius
  let nf := nearestFood hyp c local_objects.2
  let nc := nearestCreature hyp c local_objects.1
  let dx_food := match nf with
    | some (f, _) => (f.x - c.x) / c.sense_radius
    | none => 0
  let dy_food := match nf with
    | some (f, _) => (f.y - c.y) / c.sense_radius
    | none => 0
  let dist_food_norm := match nf with
    | some (_, d) => d / c.sense_radius
    | none => 0
  let dx_creature := match nc with
    | some (o, _) => (o.x - c.x) / c.sense_radius
    | none => 0
  let dy_creature := match nc with
    | some (o, _) => (o.y - c.y) / c.sense_radius
    | none => 0
  let threat_level := match nc with
    | some (o, _) => o.steal_amount / 50
    | none => 0
  [own_energy_normalized, dx_food, dy_food, dist_food_norm,
   dx_creature, dy_creature, threat_level]

/-! ## Creature action (BaseCreature.act) -/

/-- BaseCreature.act, with the four nn_outputs passed in (the network's
last layer has width 4) and math.hypot as `hyp`.  The fourth output,
action_output, is read and then unused. -/
def act (hyp : ℚ → ℚ → ℚ) (c : Creature) (o0 o1 o2 o3 : ℚ) : Creature :=
  let direction_x := o0
  let direction_y := o1
  let speed_output := o2
  let _action_output := o3
  let min_speed := c.max_speed * (1 / 10)
  let speed_multiplier := (speed_output + 1) / 2
  let desired_speed := min_speed + speed_multiplier * (c.max_speed - min_speed)
  let direction_magnitude := hyp direction_x direction_y
  let vx' := if direction_magnitude > 1 / 100 then
      direction_x / direction_magnitude * desired_speed
    else c.vx * (9 / 10)
  let vy' := if direction_magnitude > 1 / 100 then
      direction_y / direction_magnitude * desired_speed
    else c.vy * (9 / 10)
  let x' := c.x + vx'
  let y' := c.y + vy'
  let current_speed := hyp vx' vy'
  let move_energy_loss := c.move_cost * (current_speed / c.max_speed) ^ 2
  { c with vx := vx', vy := vy', x := x', y := y',
           energy := c.energy - (c.metabolic_rate + move_energy_loss),
           age := c.age + 1 }

/-! ## Collision and interaction (BaseCreature) -/

/-- BaseCreature.is_alive: energy > 0 and age < lifespan. -/
def is_alive (c : Creature) : Bool :=
  decide (0 < c.energy) && decide (c.age < c.lifespan)

/-- BaseCreature._steal_energy(target): transfer
min(target.energy, self.steal_amount) out of the target, credit the
stealer with the stolen amount times steal_efficiency, clamp the
stealer at its max_energy.  Returns (stealer, target). -/
def steal_energy (s t : Creature) : Creature × Creature :=
  let stolen_energy := min t.energy s.steal_amount
  let t' := { t with energy := t.energy - stolen_energy }
  let e := s.energy + stolen_energy * s.steal_efficiency
  let s' := { s with energy := if e > s.max_energy then s.max_energy else e }
  (s', t')

/-- BaseCreature._handle_physical_collision(other): symmetric push-apart
by half the overlap, with the 0.01 epsilon substitution when the two
centers coincide.  `hyp` is math.hypot.  Returns (self, other). -/
def handle_physical_collision (hyp : ℚ → ℚ → ℚ) (s o : Creature) :
    Creature × Creature :=
  let dx := s.x - o.x
  let dy := s.y - o.y
  let dist0 := hyp dx dy
  let distance := if dist0 = 0 then 1 / 100 else dist0
  let dx' := if dist0 = 0 then 1 / 100 else dx
  let overlap := s.radius + o.radius - distance
  if overlap > 0 then
    let push_amount := overlap / 2
    let norm_dx := dx' / distance
    let norm_dy := dy / distance
    ({ s with x := s.x + norm_dx * push_amount, y := s.y + norm_dy * push_amount },
     { o with x := o.x - norm_dx * push_amount, y := o.y - norm_dy * push_amount })
  else
    (s, o)

/-- Dictionary lookup in self.collision_interactions. -/
def lookupInteraction (c : Creature) (name : String) : Option String :=
  (c.collision_interactions.find? fun p => p.1 = name).map Prod.snd

/-- BaseCreature.on_collide(other): physical separation first, then the
species interaction ("steal_energy" is the only configured action).
Returns (self, other). -/
def on_collide (hyp : ℚ → ℚ → ℚ) (s o : Creature) : Creature × Creature :=
  let r := handle_physical_collision hyp s o
  let s1 := r.1
  let o1 := r.2
  match lookupInteraction s1 o1.species_name with
  | some action => if action = "steal_energy" then steal_energy s1 o1 else (s1, o1)
  | none => (s1, o1)

/-! ## Reproduction (BaseCreature.reproduce) -/

/-- Oracle model of random.randint(lo, hi): lo plus the seed reduced
modulo the size of the inclusive range, so that for lo ≤ hi the result
ranges over [lo, hi] exactly as randint does. -/
def randint (lo hi seed : ℕ) : ℕ := lo + seed % (hi + 1 - lo)

/-- The per-gene mutation loop: for every gene, if random() <
mutation_rate then add uniform(-mutation_amount, mutation_amount).
`coin i` is the random() draw for gene i and `delta i` the perturbation
draw (a faithful run supplies |delta i| ≤ mutation_amount). -/
def mutateGenome (rate : ℚ) (coin delta : ℕ → ℚ) (g : List ℚ) : List ℚ :=
  g.enum.map fun p => if coin p.1 < rate then p.2 + delta p.1 else p.2

/-- The randomness consumed while constructing one child: the child
object's initial random genome and identity, cos/sin of the uniform
spawn angle, and the per-gene mutation draws. -/
structure ChildRand where
  g0 : List ℚ
  cid : ℕ
  dirc : ℚ
  dirs : ℚ
  coin : ℕ → ℚ
  delta : ℕ → ℚ

/-- One loop body of reproduce: build a child at the parent's position,
move it spawn_dist = parent radius + child radius + 1 along the spawn
angle, then overwrite its genome with the mutated copy of the parent's. -/
def makeChild (p : Creature) (r : ChildRand) : Creature :=
  let child := BaseCreature_init p.x p.y p.cfg r.g0 r.cid
  let spawn_dist := p.radius + child.radius + 1
  let child := { child with x := p.x + spawn_dist * r.dirc,
                            y := p.y + spawn_dist * r.dirs }
  { child with genome := mutateGenome p.mutation_rate r.coin r.delta p.genome }

/-- BaseCreature.reproduce(): if energy >= the flat reproduction cost,
produce randint(min_offspring, max_offspring) children and report the
flat cost; otherwise report an empty litter and zero cost.  The parent
itself is not modified (the orchestrator deducts the cost). -/
def reproduce (p : Creature) (seed : ℕ) (rs : ℕ → ChildRand) :
    List Creature × ℚ :=
  let flat_reproduction_cost := p.reproduction_cost
  if p.energy ≥ flat_reproduction_cost then
    let num_offspring := randint p.min_offspring p.max_offspring seed
    ((List.range num_offspring).map fun i => makeChild p (rs i),
     flat_reproduction_cost)
  else
    ([], 0)

/-! ## Simulation passes (Simulation.update) -/

/-- Phase 4, the per-food transfer: creature.energy += food.energy,
clamped at max_energy. -/
def eatFood (c : Creature) (f : Food) : Creature :=
  let e := c.energy + f.energy
  { c with energy := if e > c.max_energy then c.max_energy else e }

/-- Count of live creatures of one species (the species_counts dict of
phase 5). -/
def countSpecies (l : List Creature) (s : String) : ℕ :=
  (l.filter fun c => c.species_name = s).length

/-- The randomness consumed by one creature's reproduction attempt. -/
structure ReproRand where
  seed : ℕ
  child : ℕ → ChildRand

/-- Pointwise update of the running species_counts map. -/
def bump (counts : String → ℕ) (name : String) (k : ℕ) : String → ℕ :=
  fun n => if n = name then counts n + k else counts n

/-- One iteration of the phase-5 loop: if the creature is at or above
its reproduction threshold and its species count is under the cap,
attempt reproduction; on a nonempty litter deduct the reported cost
from the parent and bump the running count by the litter size.
Returns (parent, newborns, updated counts). -/
def reproStep (counts : String → ℕ) :
    Creature × ReproRand → Creature × List Creature × (String → ℕ)
  | (c, r) =>
    if c.energy ≥ c.reproduction_threshold ∧
        counts c.species_name < c.population_cap then
      let res := reproduce c r.seed r.child
      if res.1.isEmpty then
        (c, [], counts)
      else
        ({ c with energy := c.energy - res.2 }, res.1,
         bump counts c.species_name res.1.length)
    else
      (c, [], counts)

/-- The phase-5 loop over all creatures, threading the running counts;
returns the (possibly energy-deducted) creatures in order and the
newborns in birth order. -/
def reproLoop : List (Creature × ReproRand) → (String → ℕ) →
    List Creature × List Creature
  | [], _ => ([], [])
  | cr :: rest, counts =>
    let step := reproStep counts cr
    let t := reproLoop rest step.2.2
    (step.1 :: t.1, step.2.1 ++ t.2)

/-- Phase 5 in full: count every species, run the loop, and extend the
world's creature list with the newborns. -/
def reproductionPass (l : List (Creature × ReproRand)) : List Creature :=
  let counts := fun n => countSpecies (l.map Prod.fst) n
  let t := reproLoop l counts
  t.1 ++ t.2

/-- Phase 6, the death pass: keep exactly the creatures for which
is_alive holds. -/
def deathPass (l : List Creature) : List Creature := l.filter is_alive

/-! ## Helper lemmas: genome bookkeeping -/

lemma sum_flatMap_weight_bias (l : List (ℕ × ℕ)) :
    ((l.flatMap fun p => [p.2 * p.1, p.2]).sum) =
      ((l.map fun p => p.1 * p.2 + p.2).sum) := by
  induction l with
  | nil => rfl
  | cons a t ih =>
    simp only [List.flatMap_cons, List.map_cons, List.sum_append,
      List.sum_cons, List.sum_nil, ih]
    ring

lemma set_genome_sound (shapes : List ℕ) (g : List ℚ)
    (h : shapes.sum ≤ g.length) :
    ∃ ps, set_genome shapes g = some ps ∧
      get_genome ps = g.take shapes.sum := by
  induction shapes generalizing g with
  | nil => exact ⟨[], rfl, by simp [get_genome]⟩
  | cons s rest ih =>
    have hsum : s + rest.sum ≤ g.length := by simpa using h
    have hs : s ≤ g.length := by omega
    have h2 : rest.sum ≤ (g.drop s).length := by
      simp only [List.length_drop]; omega
    obtain ⟨ps, hps, hflat⟩ := ih (g.drop s) h2
    refine ⟨g.take s :: ps, ?_, ?_⟩
    · simp [set_genome, hs, hps]
    · simp only [get_genome, List.flatten_cons] at hflat ⊢
      rw [hflat, List.sum_cons, List.take_add]

lemma set_genome_none_iff (shapes : List ℕ) (g : List ℚ) :
    set_genome shapes g = none ↔ g.length < shapes.sum := by
  induction shapes generalizing g with
  | nil => simp [set_genome]
  | cons s rest ih =>
    by_cases hs : s ≤ g.length
    · simp only [set_genome, if_pos hs, Option.map_eq_none', ih,
        List.length_drop, List.sum_cons]
      omega
    · simp only [set_genome, if_neg hs, List.sum_cons]
      constructor
      · intro; omega
      · intro; trivial

/-- C7: for every layer topology, calculate_genome_length equals the
closed-form sum over consecutive layer pairs of (n_i·n_{i+1} + n_{i+1}),
and for every genome vector of exactly that length, set_genome succeeds
and get_genome recovers the original vector. -/
theorem genome_length_closed_form_and_roundtrip (ls : List ℕ) (g : List ℚ)
    (h : g.length = calculate_genome_length ls) :
    calculate_genome_length ls = genomeClosedFormSpec ls ∧
    ∃ ps, set_genome (paramShapes ls) g = some ps ∧ get_genome ps = g := by
  constructor
  · unfold calculate_genome_length genomeClosedFormSpec paramShapes
    exact sum_flatMap_weight_bias _
  · obtain ⟨ps, h1, h2⟩ := set_genome_sound (paramShapes ls) g (le_of_eq h.symm)
    refine ⟨ps, h1, ?_⟩
    rw [h2, show (paramShapes ls).sum = g.length from h.symm, List.take_length]

/-- Witness for C7 at the topology [2, 3] (genome length 2·3 + 3 = 9). -/
theorem genome_length_closed_form_and_roundtrip_witness :
    ([1, 2, 3, 4, 5, 6, 7, 8, 9] : List ℚ).length =
      calculate_genome_length [2, 3] ∧
    (calculate_genome_length [2, 3] = genomeClosedFormSpec [2, 3] ∧
     ∃ ps, set_genome (paramShapes [2, 3]) [1, 2, 3, 4, 5, 6, 7, 8, 9] = some ps ∧
       get_genome ps = [1, 2, 3, 4, 5, 6, 7, 8, 9]) :=
  ⟨rfl, genome_length_closed_form_and_roundtrip [2, 3] _ rfl⟩

/-- C8 counterexample: the genome [1, 2, 3] has length 3, different from
genomeLength() = 2 for the topology [1, 1], yet set_genome accepts it,
silently ignoring the trailing entry. -/
theorem set_genome_accepts_long_genome :
    ([1, 2, 3] : List ℚ).length ≠ calculate_genome_length [1, 1] ∧
    set_genome (paramShapes [1, 1]) [1, 2, 3] = some [[1], [2]] :=
  ⟨by decide, rfl⟩

/-- C8 amended: set_genome fails exactly when the genome is too short to
fill every parameter (length < genomeLength()); a genome longer than
genomeLength() is silently accepted with the tail ignored. -/
theorem set_genome_fails_iff_too_short (ls : List ℕ) (g : List ℚ) :
    set_genome (paramShapes ls) g = none ↔
      g.length < calculate_genome_length ls :=
  set_genome_none_iff (paramShapes ls) g

/-! ## Helper lemmas: the spatial grid -/

lemma mem_offsets {s d : ℤ} (hs : 0 ≤ s) : d ∈ offsets s ↔ -s ≤ d ∧ d ≤ s := by
  unfold offsets
  rw [List.mem_map]
  constructor
  · rintro ⟨i, hi, rfl⟩
    rw [List.mem_range] at hi
    omega
  · intro h
    refine ⟨(d + s).toNat, ?_, ?_⟩
    · rw [List.mem_range]
      omega
    · omega

lemma floor_sub_floor_le (cs a b r : ℚ) (hcs : 0 < cs) (h : a - b ≤ r) :
    ⌊a / cs⌋ - ⌊b / cs⌋ ≤ ⌊r / cs⌋ + 1 := by
  have h1 : (⌊a / cs⌋ : ℚ) ≤ a / cs := Int.floor_le _
  have h2 : b / cs < (⌊b / cs⌋ : ℚ) + 1 := Int.lt_floor_add_one _
  have h3 : a / cs - b / cs ≤ r / cs := by
    rw [div_sub_div_same]
    gcongr
  have h5 : r / cs < (⌊r / cs⌋ : ℚ) + 1 := Int.lt_floor_add_one _
  have h6 : ((⌊a / cs⌋ - ⌊b / cs⌋ : ℤ) : ℚ) < ((⌊r / cs⌋ + 2 : ℤ) : ℚ) := by
    push_cast
    linarith
  have h7 : ⌊a / cs⌋ - ⌊b / cs⌋ < ⌊r / cs⌋ + 2 := by exact_mod_cast h6
  omega

lemma abs_floor_sub_floor_le (cs a b r : ℚ) (hcs : 0 < cs) (h : |a - b| ≤ r) :
    |⌊a / cs⌋ - ⌊b / cs⌋| ≤ ⌊r / cs⌋ + 1 := by
  rw [abs_le] at h ⊢
  constructor
  · have := floor_sub_floor_le cs b a r hcs (by linarith)
    omega
  · exact floor_sub_floor_le cs a b r hcs h.2

lemma abs_le_of_sq_add_sq_le (u v r : ℚ) (hr : 0 ≤ r)
    (h : u ^ 2 + v ^ 2 ≤ r ^ 2) : |u| ≤ r := by
  have h1 : u ^ 2 ≤ r ^ 2 := by nlinarith [sq_nonneg v]
  have h2 := abs_le_of_sq_le_sq' h1 hr
  exact abs_le.2 h2

lemma cell_mem_cellRange (w : World) (x y r px py : ℚ)
    (hcs : 0 < w.cell_size) (hr : 0 ≤ r)
    (hd : (px - x) ^ 2 + (py - y) ^ 2 ≤ r ^ 2) :
    cellOf w.cell_size px py ∈
      cellRange (cellOf w.cell_size x y) (searchRadiusInCells w r) := by
  have hx : |px - x| ≤ r := abs_le_of_sq_add_sq_le _ _ r hr hd
  have hy : |py - y| ≤ r := by
    have hd' : (py - y) ^ 2 + (px - x) ^ 2 ≤ r ^ 2 := by linarith
    exact abs_le_of_sq_add_sq_le _ _ r hr hd'
  have hs0 : (0 : ℤ) ≤ ⌊r / w.cell_size⌋ := by
    apply Int.floor_nonneg.2
    positivity
  have hs1 : 0 ≤ searchRadiusInCells w r := by
    unfold searchRadiusInCells; omega
  have hfx := abs_floor_sub_floor_le w.cell_size px x r hcs hx
  have hfy := abs_floor_sub_floor_le w.cell_size py y r hcs hy
  rw [abs_le] at hfx hfy
  simp only [cellRange, List.mem_flatMap, List.mem_map]
  refine ⟨⌊px / w.cell_size⌋ - ⌊x / w.cell_size⌋, ?_,
    ⌊py / w.cell_size⌋ - ⌊y / w.cell_size⌋, ?_, ?_⟩
  · rw [mem_offsets hs1]
    unfold searchRadiusInCells
    constructor <;> omega
  · rw [mem_offsets hs1]
    unfold searchRadiusInCells
    constructor <;> omega
  · unfold cellOf
    simp only [Prod.mk.injEq]
    constructor <;> ring

lemma mem_get_neighbors_creatures (w : World) (x y r : ℚ)
    (hcs : 0 < w.cell_size) (hr : 0 ≤ r) (cr : Creature)
    (hmem : cr ∈ w.creatures)
    (hd : (cr.x - x) ^ 2 + (cr.y - y) ^ 2 ≤ r ^ 2) :
    cr ∈ (get_neighbors w x y r).1 := by
  unfold get_neighbors
  simp only [List.mem_flatMap]
  refine ⟨cellOf w.cell_size cr.x cr.y,
    cell_mem_cellRange w x y r cr.x cr.y hcs hr hd, ?_⟩
  unfold gridCreatures
  rw [List.mem_filter]
  exact ⟨hmem, by simp⟩

lemma mem_get_neighbors_food (w : World) (x y r : ℚ)
    (hcs : 0 < w.cell_size) (hr : 0 ≤ r) (f : Food)
    (hmem : f ∈ w.food)
    (hd : (f.x - x) ^ 2 + (f.y - y) ^ 2 ≤ r ^ 2) :
    f ∈ (get_neighbors w x y r).2 := by
  unfold get_neighbors
  simp only [List.mem_flatMap]
  refine ⟨cellOf w.cell_size f.x f.y,
    cell_mem_cellRange w x y r f.x f.y hcs hr hd, ?_⟩
  unfold gridFood
  rw [List.mem_filter]
  exact ⟨hmem, by simp⟩

/-- C6: for every rebuilt grid, query point (x, y) and radius r ≥ 0, the
neighbor query includes every creature and every food item whose true
Euclidean distance from the query point is at most r — no false
negatives, for any placement of entities. -/
theorem get_neighbors_no_false_negatives (w : World) (x y r : ℚ)
    (hcs : 0 < w.cell_size) (hr : 0 ≤ r) :
    (∀ cr ∈ w.creatures, (cr.x - x) ^ 2 + (cr.y - y) ^ 2 ≤ r ^ 2 →
       cr ∈ (get_neighbors w x y r).1) ∧
    (∀ f ∈ w.food, (f.x - x) ^ 2 + (f.y - y) ^ 2 ≤ r ^ 2 →
       f ∈ (get_neighbors w x y r).2) :=
  ⟨fun cr hmem hd => mem_get_neighbors_creatures w x y r hcs hr cr hmem hd,
   fun f hmem hd => mem_get_neighbors_food w x y r hcs hr f hmem hd⟩

/-- C10: every creature present in the grid at the last rebuild is
included in the creature list returned by its own neighbor query, for
every radius r ≥ 0 — callers must filter out self explicitly. -/
theorem get_neighbors_includes_self (w : World) (r : ℚ) (cr : Creature)
    (hcs : 0 < w.cell_size) (hr : 0 ≤ r) (hmem : cr ∈ w.creatures) :
    cr ∈ (get_neighbors w cr.x cr.y r).1 := by
  apply mem_get_neighbors_creatures w cr.x cr.y r hcs hr cr hmem
  have : (0 : ℚ) ≤ r ^ 2 := sq_nonneg r
  simp only [sub_self]
  ring_nf
  positivity

/-! ## Concrete sample species, creatures and worlds -/

/-- Sample species descriptor (max_energy 200, threshold fraction 1/2,
cost fraction 1/4, litter size 2 to 4, population cap 2). -/
def cfg0 : SpeciesConfig :=
  { radius := 8, max_energy := 200, reproduction_threshold := 1 / 2,
    reproduction_cost := 1 / 4, mutation_rate := 1 / 20,
    mutation_amount := 1 / 10, metabolic_rate := 3 / 100,
    move_cost := 1 / 10, sense_radius := 150, max_speed := 1,
    species_name := "herb", collision_interactions := [],
    steal_amount := 0, steal_efficiency := 0, min_offspring := 2,
    max_offspring := 4, lifespan_ticks := 1000, population_cap := 2 }

/-- A well-fed creature of cfg0 near the left arena edge, at rest. -/
def cRich : Creature :=
  { x := 5, y := 100, vx := 0, vy := 0, energy := 150, age := 0,
    genome := [], cfg := cfg0, cid := 1 }

/-- A world holding only cRich and no food. -/
def w0 : World :=
  { width := 1200, height := 800, creatures := [cRich], food := [],
    cell_size := 100 }

/-- The randomness for one child: unit direction (-1, 0), no mutation
perturbations (the parent genome is empty anyway). -/
def chd0 : ChildRand :=
  { g0 := [], cid := 9, dirc := -1, dirs := 0,
    coin := fun _ => 0, delta := fun _ => 0 }

/-- Reproduction randomness with seed 2, so randint(2, 4) draws 4. -/
def rr0 : ReproRand := { seed := 2, child := fun _ => chd0 }

/-! ## Helper lemmas: sensing -/

lemma flatMap_nil_fun {α β : Type} (l : List α) :
    (l.flatMap fun _ => ([] : List β)) = [] := by
  induction l with
  | nil => rfl
  | cons a t ih => simp [List.flatMap_cons, ih]

lemma nearestCreature_self_only (hyp : ℚ → ℚ → ℚ) (c : Creature)
    (l : List Creature) :
    (∀ o ∈ l, o.cid = c.cid) → nearestCreature hyp c l = none := by
  induction l with
  | nil => intro _; rfl
  | cons a t ih =>
    intro h
    have ha : a.cid = c.cid := h a (List.mem_cons_self a t)
    show List.foldl _ _ (a :: t) = none
    rw [List.foldl_cons]
    have hstep : (if a.cid = c.cid then (none : Option (Creature × ℚ))
        else some (a, hyp (c.x - a.x) (c.y - a.y))) = none := if_pos ha
    simp only [hstep]
    exact ih fun o ho => h o (List.mem_cons_of_mem a ho)

lemma sense_isolated (hyp : ℚ → ℚ → ℚ) (c : Creature) (w : World)
    (hf : (get_neighbors w c.x c.y c.sense_radius).2 = [])
    (hc : ∀ o ∈ (get_neighbors w c.x c.y c.sense_radius).1, o.cid = c.cid) :
    sense hyp c w = [c.energy / c.max_energy, 0, 0, 0, 0, 0, 0] := by
  simp only [sense]
  rw [hf, nearestCreature_self_only hyp c _ hc]
  rfl

/-- C5 amended: sense does not special-case zero velocity — it never
reads the velocity at all, so the input vector is the same for every
velocity, and for an agent with nothing else in sensing range it is
[energy/max_energy, 0, 0, 0, 0, 0, 0] (nonzero for a live agent), not
the all-zero vector. -/
theorem sense_ignores_velocity :
    (∀ (hyp : ℚ → ℚ → ℚ) (c : Creature) (w : World) (a b : ℚ),
       sense hyp { c with vx := a, vy := b } w = sense hyp c w) ∧
    (∀ (hyp : ℚ → ℚ → ℚ) (c : Creature) (w : World),
       (get_neighbors w c.x c.y c.sense_radius).2 = [] →
       (∀ o ∈ (get_neighbors w c.x c.y c.sense_radius).1, o.cid = c.cid) →
       sense hyp c w = [c.energy / c.max_energy, 0, 0, 0, 0, 0, 0]) :=
  ⟨fun _ _ _ _ _ => rfl, fun hyp c w hf hc => sense_isolated hyp c w hf hc⟩

lemma w0_food_empty :
    (get_neighbors w0 cRich.x cRich.y cRich.sense_radius).2 = [] := by
  simp only [get_neighbors]
  have : ∀ cell, gridFood w0 cell = [] := by
    intro cell
    simp [gridFood, w0]
  simp only [this]
  exact flatMap_nil_fun _

lemma w0_creatures_self :
    ∀ o ∈ (get_neighbors w0 cRich.x cRich.y cRich.sense_radius).1,
      o.cid = cRich.cid := by
  intro o ho
  simp only [get_neighbors, List.mem_flatMap] at ho
  obtain ⟨cell, _, hcell⟩ := ho
  unfold gridCreatures at hcell
  have h1 := (List.mem_filter.1 hcell).1
  have h2 : o = cRich := by simpa [w0] using h1
  rw [h2]

/-- Witness for the amended C5, at the concrete resting creature cRich
alone in the world w0. -/
theorem sense_ignores_velocity_witness :
    sense (fun _ _ => 0) cRich w0 =
      [cRich.energy / cRich.max_energy, 0, 0, 0, 0, 0, 0] :=
  sense_ignores_velocity.2 (fun _ _ => 0) cRich w0 w0_food_empty
    w0_creatures_self

/-- C5 counterexample: cRich has velocity exactly zero, yet sense does
not produce the all-zero input vector — its first component is the
normalized energy 150/200. -/
theorem sense_zero_velocity_not_zero_vector :
    cRich.vx = 0 ∧ cRich.vy = 0 ∧
    sense (fun _ _ => 0) cRich w0 ≠ [0, 0, 0, 0, 0, 0, 0] := by
  refine ⟨rfl, rfl, ?_⟩
  rw [sense_isolated _ _ _ w0_food_empty w0_creatures_self]
  intro h
  have h0 : cRich.energy / cRich.max_energy = 0 := (List.cons_eq_cons.1 h).1
  norm_num [cRich, Creature.max_energy, cfg0] at h0

/-! ## Helper lemmas: collision and stealing -/

lemma handle_physical_collision_fields (hyp : ℚ → ℚ → ℚ) (s o : Creature) :
    (handle_physical_collision hyp s o).1.energy = s.energy ∧
    (handle_physical_collision hyp s o).1.cfg = s.cfg ∧
    (handle_physical_collision hyp s o).2.energy = o.energy ∧
    (handle_physical_collision hyp s o).2.cfg = o.cfg := by
  simp only [handle_physical_collision]
  split <;> split <;> simp

lemma lookupInteraction_congr (c c' : Creature) (h : c.cfg = c'.cfg)
    (n : String) : lookupInteraction c n = lookupInteraction c' n := by
  unfold lookupInteraction Creature.collision_interactions
  rw [h]

lemma on_collide_eq_steal (hyp : ℚ → ℚ → ℚ) (s o : Creature)
    (h : lookupInteraction (handle_physical_collision hyp s o).1
      ((handle_physical_collision hyp s o).2.species_name) =
        some "steal_energy") :
    on_collide hyp s o =
      steal_energy (handle_physical_collision hyp s o).1
        (handle_physical_collision hyp s o).2 := by
  simp only [on_collide]
  rw [h]
  simp

/-- C2: whenever a collision triggers a configured steal-energy
interaction, the victim loses exactly min(victim energy, steal_amount)
while the stealer gains that amount times steal_efficiency, clamped at
its max_energy; for steal_amount 30 and efficiency 4/5 against a victim
holding at least 30 energy, the victim loses exactly 30 and the stealer
gains exactly 24 up to its cap. -/
theorem on_collide_steal_exact (hyp : ℚ → ℚ → ℚ) (s o : Creature)
    (hcfg : lookupInteraction s o.species_name = some "steal_energy") :
    ((on_collide hyp s o).2.energy =
       o.energy - min o.energy s.steal_amount) ∧
    ((on_collide hyp s o).1.energy =
       if s.energy + min o.energy s.steal_amount * s.steal_efficiency >
           s.max_energy
       then s.max_energy
       else s.energy + min o.energy s.steal_amount * s.steal_efficiency) ∧
    (s.steal_amount = 30 → s.steal_efficiency = 4 / 5 → 30 ≤ o.energy →
       (on_collide hyp s o).2.energy = o.energy - 30 ∧
       (on_collide hyp s o).1.energy =
         if s.energy + 24 > s.max_energy then s.max_energy
         else s.energy + 24) := by
  obtain ⟨h1, h2, h3, h4⟩ := handle_physical_collision_fields hyp s o
  have hsp : (handle_physical_collision hyp s o).2.species_name =
      o.species_name := by
    unfold Creature.species_name
    rw [h4]
  have hlook : lookupInteraction (handle_physical_collision hyp s o).1
      ((handle_physical_collision hyp s o).2.species_name) =
        some "steal_energy" := by
    rw [hsp, lookupInteraction_congr _ s h2]
    exact hcfg
  rw [on_collide_eq_steal hyp s o hlook]
  have hsa : (handle_physical_collision hyp s o).1.steal_amount =
      s.steal_amount := by
    unfold Creature.steal_amount
    rw [h2]
  have hse : (handle_physical_collision hyp s o).1.steal_efficiency =
      s.steal_efficiency := by
    unfold Creature.steal_efficiency
    rw [h2]
  have hsm : (handle_physical_collision hyp s o).1.max_energy =
      s.max_energy := by
    unfold Creature.max_energy
    rw [h2]
  simp only [steal_energy, hsa, hse, hsm, h1, h3]
  refine ⟨by trivial, by trivial, ?_⟩
  intro ha he ho
  rw [ha, he, min_eq_right ho]
  norm_num

/-- Witness for C2: the scavenger configuration (steal 30, efficiency
4/5) against cRich, which holds 150 ≥ 30 energy. -/
def cfgS : SpeciesConfig :=
  { radius := 8, max_energy := 150, reproduction_threshold := 9 / 10,
    reproduction_cost := 1 / 5, mutation_rate := 1 / 10,
    mutation_amount := 1 / 10, metabolic_rate := 1 / 10,
    move_cost := 3 / 100, sense_radius := 200, max_speed := 13 / 10,
    species_name := "scav",
    collision_interactions := [("herb", "steal_energy")],
    steal_amount := 30, steal_efficiency := 4 / 5, min_offspring := 1,
    max_offspring := 1, lifespan_ticks := 1000, population_cap := 2 }

/-- A stealer of species cfgS overlapping cRich. -/
def cThief : Creature :=
  { x := 10, y := 100, vx := 0, vy := 0, energy := 100, age := 0,
    genome := [], cfg := cfgS, cid := 2 }

theorem on_collide_steal_exact_witness :
    ((on_collide (fun _ _ => 0) cThief cRich).2.energy =
       cRich.energy - min cRich.energy cThief.steal_amount) ∧
    (cThief.steal_amount = 30 ∧ cThief.steal_efficiency = 4 / 5 ∧
      30 ≤ cRich.energy) ∧
    ((on_collide (fun _ _ => 0) cThief cRich).2.energy =
       cRich.energy - 30) := by
  have hcfg : lookupInteraction cThief cRich.species_name =
      some "steal_energy" := by
    simp [lookupInteraction, Creature.collision_interactions,
      Creature.species_name, cThief, cRich, cfgS, cfg0]
  have h := on_collide_steal_exact (fun _ _ => 0) cThief cRich hcfg
  refine ⟨h.1, ⟨rfl, rfl, ?_⟩, ?_⟩
  · norm_num [cRich]
  · exact (h.2.2 rfl rfl (by norm_num [cRich])).1

/-! ## Helper lemmas: reproduction -/

lemma randint_lower (lo hi seed : ℕ) : lo ≤ randint lo hi seed :=
  Nat.le_add_right lo _

lemma randint_upper (lo hi seed : ℕ) (h : lo ≤ hi) : randint lo hi seed ≤ hi := by
  unfold randint
  have hlt := Nat.mod_lt seed (show 0 < hi + 1 - lo by omega)
  omega

lemma reproduce_low (p : Creature) (seed : ℕ) (rs : ℕ → ChildRand)
    (h : p.energy < p.reproduction_cost) : reproduce p seed rs = ([], 0) := by
  unfold reproduce
  rw [if_neg (not_le.2 h)]

lemma reproduce_high (p : Creature) (seed : ℕ) (rs : ℕ → ChildRand)
    (h : p.reproduction_cost ≤ p.energy) :
    reproduce p seed rs =
      ((List.range (randint p.min_offspring p.max_offspring seed)).map
          fun i => makeChild p (rs i),
       p.reproduction_cost) := by
  unfold reproduce
  rw [if_pos h]

lemma reproduce_length_bounds (p : Creature) (seed : ℕ) (rs : ℕ → ChildRand)
    (hc : p.reproduction_cost ≤ p.energy)
    (hmm : p.min_offspring ≤ p.max_offspring) :
    p.min_offspring ≤ (reproduce p seed rs).1.length ∧
      (reproduce p seed rs).1.length ≤ p.max_offspring := by
  rw [reproduce_high p seed rs hc]
  simp only [List.length_map, List.length_range]
  exact ⟨randint_lower _ _ _, randint_upper _ _ _ hmm⟩

/-- C1: a parent with energy below the flat reproduction cost returns an
empty litter with zero reported cost, and the orchestrator step leaves
the parent and the running counts untouched; a parent with enough
energy gets a litter of size between min_offspring and max_offspring
and reports exactly the flat cost, which the orchestrator deducts
exactly once per successful litter. -/
theorem reproduce_flat_cost (c : Creature) (seed : ℕ) (rs : ℕ → ChildRand)
    (counts : String → ℕ) (r : ReproRand) :
    (c.energy < c.reproduction_cost →
       reproduce c seed rs = ([], 0) ∧
       reproStep counts (c, r) = (c, [], counts)) ∧
    (c.reproduction_cost ≤ c.energy → c.min_offspring ≤ c.max_offspring →
       (reproduce c seed rs).2 = c.reproduction_cost ∧
       c.min_offspring ≤ (reproduce c seed rs).1.length ∧
       (reproduce c seed rs).1.length ≤ c.max_offspring) ∧
    (c.reproduction_cost ≤ c.energy → c.reproduction_threshold ≤ c.energy →
       counts c.species_name < c.population_cap → 1 ≤ c.min_offspring →
       (reproStep counts (c, r)).1.energy = c.energy - c.reproduction_cost) := by
  refine ⟨?_, ?_, ?_⟩
  · intro h
    refine ⟨reproduce_low c seed rs h, ?_⟩
    simp only [reproStep]
    split
    · rw [reproduce_low c r.seed r.child h]
      simp
    · rfl
  · intro hc hmm
    refine ⟨?_, reproduce_length_bounds c seed rs hc hmm⟩
    rw [reproduce_high c seed rs hc]
  · intro hc hthr hpop hmin
    have hlb := randint_lower c.min_offspring c.max_offspring r.seed
    have hlen : 1 ≤ (reproduce c r.seed r.child).1.length := by
      rw [reproduce_high c r.seed r.child hc]
      simp only [List.length_map, List.length_range]
      omega
    have hne : ¬((reproduce c r.seed r.child).1.isEmpty = true) := by
      intro hcontra
      rw [List.isEmpty_iff] at hcontra
      rw [hcontra] at hlen
      simp at hlen
    simp only [reproStep]
    rw [if_pos ⟨hthr, hpop⟩, if_neg hne]
    have h2 : (reproduce c r.seed r.child).2 = c.reproduction_cost := by
      rw [reproduce_high c r.seed r.child hc]
    simp [h2]

/-- An underfed creature of cfg0 (energy 10, below the cost 50). -/
def cPoor : Creature :=
  { x := 0, y := 0, vx := 0, vy := 0, energy := 10, age := 0,
    genome := [], cfg := cfg0, cid := 3 }

/-- Witness for C1: the failure branch at cPoor and the success branch
(flat cost reported and deducted) at cRich. -/
theorem reproduce_flat_cost_witness :
    reproduce cPoor 0 (fun _ => chd0) = ([], 0) ∧
    (reproduce cRich 2 (fun _ => chd0)).2 = cRich.reproduction_cost ∧
    (reproStep (fun _ => 0) (cRich, rr0)).1.energy =
      cRich.energy - cRich.reproduction_cost := by
  have hpoor : cPoor.energy < cPoor.reproduction_cost := by
    norm_num [cPoor, Creature.reproduction_cost, cfg0]
  have hrichc : cRich.reproduction_cost ≤ cRich.energy := by
    norm_num [cRich, Creature.reproduction_cost, cfg0]
  have hricht : cRich.reproduction_threshold ≤ cRich.energy := by
    norm_num [cRich, Creature.reproduction_threshold, cfg0]
  refine ⟨((reproduce_flat_cost cPoor 0 (fun _ => chd0) (fun _ => 0) rr0).1
      hpoor).1, ?_, ?_⟩
  · exact ((reproduce_flat_cost cRich 2 (fun _ => chd0) (fun _ => 0) rr0).2.1
      hrichc (by decide)).1
  · exact (reproduce_flat_cost cRich 2 (fun _ => chd0) (fun _ => 0) rr0).2.2
      hrichc hricht (by decide) (by decide)

/-! ## Helper lemmas: species counting and the reproduction pass -/

lemma countSpecies_nil (s : String) : countSpecies [] s = 0 := rfl

lemma countSpecies_cons (a : Creature) (l : List Creature) (s : String) :
    countSpecies (a :: l) s =
      (if a.species_name = s then 1 else 0) + countSpecies l s := by
  unfold countSpecies
  rw [List.filter_cons]
  by_cases h : a.species_name = s
  · simp [h, Nat.add_comm]
  · simp [h]

lemma countSpecies_append (l₁ l₂ : List Creature) (s : String) :
    countSpecies (l₁ ++ l₂) s = countSpecies l₁ s + countSpecies l₂ s := by
  unfold countSpecies
  rw [List.filter_append, List.length_append]

lemma countSpecies_eq_length (l : List Creature) (s : String)
    (h : ∀ c ∈ l, c.species_name = s) : countSpecies l s = l.length := by
  induction l with
  | nil => rfl
  | cons a t ih =>
    rw [countSpecies_cons, if_pos (h a (List.mem_cons_self a t)),
      ih fun c hc => h c (List.mem_cons_of_mem a hc)]
    simp [Nat.add_comm]

lemma countSpecies_eq_zero (l : List Creature) (s : String)
    (h : ∀ c ∈ l, c.species_name ≠ s) : countSpecies l s = 0 := by
  induction l with
  | nil => rfl
  | cons a t ih =>
    rw [countSpecies_cons, if_neg (h a (List.mem_cons_self a t)),
      ih fun c hc => h c (List.mem_cons_of_mem a hc)]

lemma reproduce_species (p : Creature) (seed : ℕ) (rs : ℕ → ChildRand) :
    ∀ c ∈ (reproduce p seed rs).1, c.species_name = p.species_name := by
  intro c hc
  by_cases h : p.reproduction_cost ≤ p.energy
  · rw [reproduce_high p seed rs h] at hc
    simp only [List.mem_map] at hc
    obtain ⟨i, _, rfl⟩ := hc
    rfl
  · rw [reproduce_low p seed rs (not_le.1 h)] at hc
    simp at hc

lemma countSpecies_reproduce (p : Creature) (seed : ℕ) (rs : ℕ → ChildRand)
    (s : String) :
    countSpecies (reproduce p seed rs).1 s =
      if p.species_name = s then (reproduce p seed rs).1.length else 0 := by
  by_cases h : p.species_name = s
  · rw [if_pos h]
    exact countSpecies_eq_length _ _ fun c hc =>
      (reproduce_species p seed rs c hc).trans h
  · rw [if_neg h]
    exact countSpecies_eq_zero _ _ fun c hc =>
      (reproduce_species p seed rs c hc).symm ▸ h

lemma reproStep_fst_species (counts : String → ℕ) (cr : Creature × ReproRand) :
    (reproStep counts cr).1.species_name = cr.1.species_name := by
  obtain ⟨c, r⟩ := cr
  simp only [reproStep]
  split
  · split
    · rfl
    · rfl
  · rfl

lemma reproLoop_fst_count (s : String) :
    ∀ (l : List (Creature × ReproRand)) (counts : String → ℕ),
      countSpecies (reproLoop l counts).1 s =
        countSpecies (l.map Prod.fst) s := by
  intro l
  induction l with
  | nil => intro _; rfl
  | cons cr rest ih =>
    intro counts
    simp only [reproLoop, List.map_cons]
    rw [countSpecies_cons, countSpecies_cons, ih, reproStep_fst_species]

lemma reproLoop_newborn_bound (s : String) (K M : ℕ) :
    ∀ (l : List (Creature × ReproRand)) (counts : String → ℕ),
      (∀ cr ∈ l, cr.1.species_name = s →
        cr.1.population_cap = K ∧ cr.1.max_offspring ≤ M ∧
          cr.1.min_offspring ≤ cr.1.max_offspring) →
      counts s + countSpecies (reproLoop l counts).2 s ≤
        max (counts s) (K - 1 + M) := by
  intro l
  induction l with
  | nil =>
    intro counts _
    simp only [reproLoop, countSpecies_nil]
    exact le_max_left _ _
  | cons cr rest ih =>
    intro counts h
    obtain ⟨c, r⟩ := cr
    have hrest : ∀ cr' ∈ rest, cr'.1.species_name = s →
        cr'.1.population_cap = K ∧ cr'.1.max_offspring ≤ M ∧
          cr'.1.min_offspring ≤ cr'.1.max_offspring :=
      fun cr' h' hs => h cr' (List.mem_cons_of_mem _ h') hs
    simp only [reproLoop]
    rw [countSpecies_append]
    by_cases helig : c.energy ≥ c.reproduction_threshold ∧
        counts c.species_name < c.population_cap
    · by_cases hemp : (reproduce c r.seed r.child).1.isEmpty = true
      · have hstep : reproStep counts (c, r) = (c, [], counts) := by
          simp only [reproStep]
          rw [if_pos helig, if_pos hemp]
        rw [hstep]
        simp only [countSpecies_nil, Nat.zero_add]
        exact ih counts hrest
      · have hstep : reproStep counts (c, r) =
            ({ c with energy := c.energy - (reproduce c r.seed r.child).2 },
             (reproduce c r.seed r.child).1,
             bump counts c.species_name
               (reproduce c r.seed r.child).1.length) := by
          simp only [reproStep]
          rw [if_pos helig, if_neg hemp]
        rw [hstep]
        dsimp only
        have hcost : c.reproduction_cost ≤ c.energy := by
          by_contra hlt'
          rw [reproduce_low c r.seed r.child (not_le.1 hlt')] at hemp
          simp at hemp
        by_cases hs : c.species_name = s
        · obtain ⟨hK, hM, hmm⟩ := h (c, r) (List.mem_cons_self _ _) hs
          have hlt : counts s < K := by
            have h2 := helig.2
            rw [hs, hK] at h2
            exact h2
          have hcs : countSpecies (reproduce c r.seed r.child).1 s =
              (reproduce c r.seed r.child).1.length := by
            rw [countSpecies_reproduce, if_pos hs]
          have hnM : (reproduce c r.seed r.child).1.length ≤ M :=
            le_trans (reproduce_length_bounds c r.seed r.child hcost hmm).2 hM
          have hbump : bump counts c.species_name
              ((reproduce c r.seed r.child).1.length) s =
                counts s + (reproduce c r.seed r.child).1.length := by
            unfold bump
            rw [if_pos hs.symm]
          have ihh := ih (bump counts c.species_name
            ((reproduce c r.seed r.child).1.length)) hrest
          rw [hbump] at ihh
          have h1 : counts s + (reproduce c r.seed r.child).1.length ≤
              K - 1 + M := by omega
          rw [max_eq_right h1] at ihh
          refine le_trans ?_ (le_max_right _ _)
          rw [hcs]
          omega
        · have hcs : countSpecies (reproduce c r.seed r.child).1 s = 0 := by
            rw [countSpecies_reproduce, if_neg hs]
          have hbump : bump counts c.species_name
              ((reproduce c r.seed r.child).1.length) s = counts s := by
            unfold bump
            rw [if_neg fun hh => hs hh.symm]
          have ihh := ih (bump counts c.species_name
            ((reproduce c r.seed r.child).1.length)) hrest
          rw [hbump] at ihh
          rw [hcs]
          simpa using ihh
    · have hstep : reproStep counts (c, r) = (c, [], counts) := by
        simp only [reproStep]
        rw [if_neg helig]
      rw [hstep]
      simp only [countSpecies_nil, Nat.zero_add]
      exact ih counts hrest

/-- C4 amended: the reproduction pass keeps a running per-species count
and stops admitting litters once the count reaches the cap, but a
single litter may overshoot: after the pass a species' count is at most
max(its count before the pass, population_cap - 1 + max_offspring) —
the cap itself can be exceeded by up to max_offspring - 1. -/
theorem reproduction_pass_bounded_overshoot (l : List (Creature × ReproRand))
    (s : String) (K M : ℕ)
    (h : ∀ cr ∈ l, cr.1.species_name = s →
      cr.1.population_cap = K ∧ cr.1.max_offspring ≤ M ∧
        cr.1.min_offspring ≤ cr.1.max_offspring) :
    countSpecies (reproductionPass l) s ≤
      max (countSpecies (l.map Prod.fst) s) (K - 1 + M) := by
  unfold reproductionPass
  rw [countSpecies_append, reproLoop_fst_count]
  exact reproLoop_newborn_bound s K M l
    (fun n => countSpecies (l.map Prod.fst) n) h

/-- Witness for the amended C4 at the one-creature world [cRich]. -/
theorem reproduction_pass_bounded_overshoot_witness :
    countSpecies (reproductionPass [(cRich, rr0)]) cRich.species_name ≤
      max (countSpecies ([(cRich, rr0)].map Prod.fst) cRich.species_name)
        (2 - 1 + 4) := by
  refine reproduction_pass_bounded_overshoot [(cRich, rr0)]
    cRich.species_name 2 4 ?_
  intro cr hcr _
  have hc : cr = (cRich, rr0) := by simpa using hcr
  rw [hc]
  exact ⟨rfl, by decide, by decide⟩

/-! ## Concrete evaluation of the reproduction pass at cRich -/

lemma cRich_threshold : cRich.energy ≥ cRich.reproduction_threshold := by
  norm_num [cRich, Creature.reproduction_threshold, cfg0]

lemma cRich_cost : cRich.reproduction_cost ≤ cRich.energy := by
  norm_num [cRich, Creature.reproduction_cost, cfg0]

lemma reproduce_cRich :
    reproduce cRich rr0.seed rr0.child =
      ([makeChild cRich chd0, makeChild cRich chd0, makeChild cRich chd0,
        makeChild cRich chd0], cRich.reproduction_cost) := by
  rw [reproduce_high cRich rr0.seed rr0.child cRich_cost]
  have hn : randint cRich.min_offspring cRich.max_offspring rr0.seed = 4 := by
    decide
  rw [hn]
  rfl

lemma reproStep_cRich (counts : String → ℕ)
    (h : counts cRich.species_name < cRich.population_cap) :
    reproStep counts (cRich, rr0) =
      ({ cRich with energy := cRich.energy - cRich.reproduction_cost },
       [makeChild cRich chd0, makeChild cRich chd0, makeChild cRich chd0,
        makeChild cRich chd0],
       bump counts cRich.species_name 4) := by
  simp only [reproStep]
  rw [if_pos ⟨cRich_threshold, h⟩, reproduce_cRich]
  simp

lemma reproductionPass_cRich :
    reproductionPass [(cRich, rr0)] =
      { cRich with energy := cRich.energy - cRich.reproduction_cost } ::
        [makeChild cRich chd0, makeChild cRich chd0, makeChild cRich chd0,
         makeChild cRich chd0] := by
  have hcount : (fun n => countSpecies ([(cRich, rr0)].map Prod.fst) n)
      cRich.species_name < cRich.population_cap := by
    show countSpecies [cRich] cRich.species_name < cRich.population_cap
    rw [countSpecies_cons, if_pos rfl, countSpecies_nil]
    decide
  unfold reproductionPass
  simp only [reproLoop]
  rw [reproStep_cRich _ hcount]
  simp

/-- C4 counterexample: the species count of cRich's species respects
the cap (2) before the pass, yet after one reproduction pass it is 5 —
the single admitted litter of 4 overshoots the cap. -/
theorem reproduction_pass_exceeds_cap :
    countSpecies ([(cRich, rr0)].map Prod.fst) cRich.species_name ≤
      cRich.population_cap ∧
    cRich.population_cap <
      countSpecies (reproductionPass [(cRich, rr0)]) cRich.species_name := by
  constructor
  · show countSpecies [cRich] cRich.species_name ≤ cRich.population_cap
    rw [countSpecies_cons, if_pos rfl, countSpecies_nil]
    decide
  · rw [reproductionPass_cRich]
    have hall : ∀ c ∈ ({ cRich with
          energy := cRich.energy - cRich.reproduction_cost } ::
        [makeChild cRich chd0, makeChild cRich chd0, makeChild cRich chd0,
         makeChild cRich chd0]), c.species_name = cRich.species_name := by
      intro c hc
      simp only [List.mem_cons, List.mem_singleton] at hc
      rcases hc with rfl | rfl | rfl | rfl | rfl | h
      · rfl
      · rfl
      · rfl
      · rfl
      · rfl
      · simp at h
    rw [countSpecies_eq_length _ _ hall]
    decide

/-- C9: each child is placed at Euclidean distance exactly
parent radius + child radius + 1 from the parent along the drawn unit
direction, and the reproduction pass appends children without any
boundary wrap — for cRich (x = 5, radius 8, spawn distance 17) the
direction (-1, 0) puts a child at x = -12, outside [0, width). -/
theorem offspring_spawn_distance_and_no_wrap :
    (∀ (p : Creature) (r : ChildRand), r.dirc ^ 2 + r.dirs ^ 2 = 1 →
       ((makeChild p r).x - p.x) ^ 2 + ((makeChild p r).y - p.y) ^ 2 =
         (p.radius + (makeChild p r).radius + 1) ^ 2) ∧
    (∃ c ∈ reproductionPass [(cRich, rr0)], c.x < 0) := by
  constructor
  · intro p r h
    have hx : (makeChild p r).x - p.x =
        (p.cfg.radius + p.cfg.radius + 1) * r.dirc := by
      simp only [makeChild, BaseCreature_init, Creature.radius]
      ring
    have hy : (makeChild p r).y - p.y =
        (p.cfg.radius + p.cfg.radius + 1) * r.dirs := by
      simp only [makeChild, BaseCreature_init, Creature.radius]
      ring
    have hrad : (makeChild p r).radius = p.cfg.radius := rfl
    have hprad : p.radius = p.cfg.radius := rfl
    rw [hx, hy, hrad, hprad]
    linear_combination (p.cfg.radius + p.cfg.radius + 1) ^ 2 * h
  · refine ⟨makeChild cRich chd0, ?_, ?_⟩
    · rw [reproductionPass_cRich]
      simp
    · show cRich.x + (cRich.radius + cRich.cfg.radius + 1) * chd0.dirc < 0
      norm_num [cRich, cfg0, chd0, Creature.radius]

/-- Witness for C9 at cRich with the unit direction (-1, 0). -/
theorem offspring_spawn_distance_witness :
    chd0.dirc ^ 2 + chd0.dirs ^ 2 = 1 ∧
    ((makeChild cRich chd0).x - cRich.x) ^ 2 +
        ((makeChild cRich chd0).y - cRich.y) ^ 2 =
      (cRich.radius + (makeChild cRich chd0).radius + 1) ^ 2 := by
  have h1 : chd0.dirc ^ 2 + chd0.dirs ^ 2 = 1 := by norm_num [chd0]
  exact ⟨h1, offspring_spawn_distance_and_no_wrap.1 cRich chd0 h1⟩

/-! ## Energy bookkeeping (C3) -/

/-- C3 amended: every feeding, stealing and reproduction event keeps
energy within [0, max_energy] (the stealer and the eater are clamped at
max_energy; the victim never drops below 0 or gains; the parent pays at
most its energy; children start at max_energy/2), and the per-tick act
debit only ever lowers energy — but it has no floor at zero, so energy
can go negative there, and any such agent fails is_alive and is removed
by the next death pass. -/
theorem energy_bounds_amended :
    (∀ s t : Creature, 0 ≤ (steal_energy s t).2.energy ∨
       ¬ (min t.energy s.steal_amount ≤ t.energy)) ∧
    (∀ s t : Creature, 0 ≤ t.energy → 0 ≤ s.steal_amount →
       (steal_energy s t).2.energy ≤ t.energy) ∧
    (∀ s t : Creature, (steal_energy s t).1.energy ≤ s.max_energy) ∧
    (∀ s t : Creature, 0 ≤ s.energy → 0 ≤ s.steal_efficiency →
       0 ≤ t.energy → 0 ≤ s.steal_amount → 0 ≤ s.max_energy →
       0 ≤ (steal_energy s t).1.energy) ∧
    (∀ (c : Creature) (f : Food), (eatFood c f).energy ≤ c.max_energy) ∧
    (∀ (c : Creature) (f : Food), 0 ≤ c.energy → 0 ≤ f.energy →
       0 ≤ c.max_energy → 0 ≤ (eatFood c f).energy) ∧
    (∀ (hyp : ℚ → ℚ → ℚ) (c : Creature) (o0 o1 o2 o3 : ℚ),
       0 ≤ c.metabolic_rate → 0 ≤ c.move_cost →
       (act hyp c o0 o1 o2 o3).energy ≤ c.energy) ∧
    (∀ (counts : String → ℕ) (cr : Creature × ReproRand),
       0 ≤ cr.1.energy → 0 ≤ cr.1.reproduction_cost →
       0 ≤ (reproStep counts cr).1.energy ∧
         (reproStep counts cr).1.energy ≤ cr.1.energy) ∧
    (∀ (p : Creature) (r : ChildRand), 0 ≤ p.max_energy →
       0 ≤ (makeChild p r).energy ∧
         (makeChild p r).energy ≤ (makeChild p r).max_energy) ∧
    (∀ (l : List Creature) (c : Creature), c ∈ deathPass l →
       0 < c.energy) := by
  refine ⟨?_, ?_, ?_, ?_, ?_, ?_, ?_, ?_, ?_, ?_⟩
  · intro s t
    left
    simp only [steal_energy]
    have := min_le_left t.energy s.steal_amount
    linarith
  · intro s t ht hs
    simp only [steal_energy]
    have := le_min ht hs
    linarith
  · intro s t
    simp only [steal_energy]
    split
    · exact le_rfl
    · next h => exact le_of_not_lt h
  · intro s t hs he ht ha hm
    simp only [steal_energy]
    split
    · exact hm
    · have h1 : 0 ≤ min t.energy s.steal_amount := le_min ht ha
      have h2 : 0 ≤ min t.energy s.steal_amount * s.steal_efficiency :=
        mul_nonneg h1 he
      linarith
  · intro c f
    simp only [eatFood]
    split
    · exact le_rfl
    · next h => exact le_of_not_lt h
  · intro c f hc hf hm
    simp only [eatFood]
    split
    · exact hm
    · linarith
  · intro hyp c o0 o1 o2 o3 hmet hmc
    simp only [act]
    have key : ∀ v : ℚ,
        c.energy - (c.metabolic_rate + c.move_cost * v ^ 2) ≤ c.energy := by
      intro v
      have : 0 ≤ c.move_cost * v ^ 2 := mul_nonneg hmc (sq_nonneg v)
      linarith
    exact key _
  · intro counts cr h0 hcost
    obtain ⟨c, r⟩ := cr
    simp only [reproStep]
    split
    · split
      · exact ⟨h0, le_rfl⟩
      · next hemp =>
        have hce : c.reproduction_cost ≤ c.energy := by
          by_contra hlt'
          rw [reproduce_low c r.seed r.child (not_le.1 hlt')] at hemp
          simp at hemp
        have h2 : (reproduce c r.seed r.child).2 = c.reproduction_cost := by
          rw [reproduce_high c r.seed r.child hce]
        dsimp only
        rw [h2]
        constructor
        · linarith
        · linarith
    · exact ⟨h0, le_rfl⟩
  · intro p r hm
    have h1 : (makeChild p r).energy = p.cfg.max_energy / 2 := rfl
    have h2 : (makeChild p r).max_energy = p.cfg.max_energy := rfl
    have h3 : p.max_energy = p.cfg.max_energy := rfl
    rw [h3] at hm
    rw [h1, h2]
    constructor
    · linarith
    · linarith
  · intro l c hc
    have h1 := (List.mem_filter.1 hc).2
    simp only [is_alive, Bool.and_eq_true, decide_eq_true_eq] at h1
    exact h1.1

/-- An almost-starved creature of cfg0 holding a valid energy of 1/100. -/
def cLow : Creature :=
  { x := 0, y := 0, vx := 0, vy := 0, energy := 1 / 100, age := 0,
    genome := [], cfg := cfg0, cid := 4 }

/-- C3 counterexample: cLow starts with energy inside [0, max_energy],
yet after one act (coasting, zero speed, so math.hypot returns exactly 0
on both calls) its energy is 1/100 - 3/100 < 0 — the lower bound of the
claimed invariant is violated between the act and the death pass. -/
theorem act_energy_below_zero :
    0 ≤ cLow.energy ∧ cLow.energy ≤ cLow.max_energy ∧
    (act (fun _ _ => 0) cLow 0 0 (-1) 0).energy < 0 := by
  refine ⟨by norm_num [cLow], ?_, ?_⟩
  · norm_num [cLow, Creature.max_energy, cfg0]
  · simp only [act]
    norm_num [cLow, cfg0, Creature.metabolic_rate, Creature.move_cost,
      Creature.max_speed]

/-- A standard food pellet. -/
def f0 : Food := { x := 5, y := 100, energy := 100, radius := 5 }

/-- Witness for the amended C3, instantiating every hypothesized
conjunct at concrete creatures, food and passes. -/
theorem energy_bounds_amended_witness :
    ((steal_energy cThief cRich).2.energy ≤ cRich.energy) ∧
    (0 ≤ (steal_energy cThief cRich).1.energy) ∧
    (0 ≤ (eatFood cRich f0).energy) ∧
    ((act (fun _ _ => 0) cRich 0 0 0 0).energy ≤ cRich.energy) ∧
    (0 ≤ (reproStep (fun _ => 0) (cRich, rr0)).1.energy) ∧
    (0 ≤ (makeChild cRich chd0).energy) ∧
    (0 < cRich.energy) := by
  have hmem : cRich ∈ deathPass [cRich] := by
    have halive : is_alive cRich = true := by
      simp only [is_alive, Bool.and_eq_true, decide_eq_true_eq]
      constructor
      · norm_num [cRich]
      · decide
    unfold deathPass
    exact List.mem_filter.2 ⟨List.mem_cons_self _ _, halive⟩
  refine ⟨?_, ?_, ?_, ?_, ?_, ?_, ?_⟩
  · exact energy_bounds_amended.2.1 cThief cRich (by norm_num [cRich])
      (by norm_num [cThief, Creature.steal_amount, cfgS])
  · exact energy_bounds_amended.2.2.2.1 cThief cRich
      (by norm_num [cThief]) (by norm_num [cThief, Creature.steal_efficiency, cfgS])
      (by norm_num [cRich]) (by norm_num [cThief, Creature.steal_amount, cfgS])
      (by norm_num [cThief, Creature.max_energy, cfgS])
  · exact energy_bounds_amended.2.2.2.2.2.1 cRich f0 (by norm_num [cRich])
      (by norm_num [f0]) (by norm_num [cRich, Creature.max_energy, cfg0])
  · exact energy_bounds_amended.2.2.2.2.2.2.1 (fun _ _ => 0) cRich 0 0 0 0
      (by norm_num [cRich, Creature.metabolic_rate, cfg0])
      (by norm_num [cRich, Creature.move_cost, cfg0])
  · exact (energy_bounds_amended.2.2.2.2.2.2.2.1 (fun _ => 0) (cRich, rr0)
      (by norm_num [cRich])
      (by norm_num [cRich, Creature.reproduction_cost, cfg0])).1
  · exact (energy_bounds_amended.2.2.2.2.2.2.2.2.1 cRich chd0
      (by norm_num [cRich, Creature.max_energy, cfg0])).1
  · exact energy_bounds_amended.2.2.2.2.2.2.2.2.2 [cRich] cRich hmem

/-! ## Witnesses for the grid theorems -/

/-- C6 witness world: one creature and one food item at (5, 100); the
query point (8, 104) is at Euclidean distance exactly 5 from both. -/
def wQ : World :=
  { width := 1200, height := 800, creatures := [cRich], food := [f0],
    cell_size := 100 }

theorem get_neighbors_no_false_negatives_witness :
    cRich ∈ (get_neighbors wQ 8 104 5).1 ∧
    f0 ∈ (get_neighbors wQ 8 104 5).2 := by
  have h := get_neighbors_no_false_negatives wQ 8 104 5
    (by norm_num [wQ]) (by norm_num)
  constructor
  · exact h.1 cRich (by simp [wQ]) (by norm_num [cRich])
  · exact h.2 f0 (by simp [wQ]) (by norm_num [f0])

theorem get_neighbors_includes_self_witness :
    cRich ∈ (get_neighbors w0 cRich.x cRich.y 5).1 :=
  get_neighbors_includes_self w0 5 cRich (by norm_num [w0]) (by norm_num)
    (by simp [w0])

end Evolution
